import Mathlib

/-!
Shallow embedding of `src/ism_lines_helpers.py` (Meudon PDR spectral-line
helpers) and proofs about its transition-descriptor parser and renderer.

Python strings are modelled as `List Char`; fallible Python code is modelled
with `Except Err`; the unbounded `while` loop of `transition_to_latex` is
modelled by a fuel-indexed recursion whose `fuelOut` outcome records that the
loop did not finish within the given number of iterations (so an outcome of
`fuelOut` for every fuel value means the loop never terminates).
-/

deriving instance DecidableEq for Except

/-- Python strings are modelled as lists of characters. -/
abbrev Str := List Char

/-- Coerces a Lean string literal into the `List Char` model. -/
def str (s : String) : Str := s.data

/-- Exception classes raised by the Python code. -/
inductive Err where
  | valueError
  | runtimeError
  | attributeError
  | zeroDivisionError
  deriving DecidableEq

/-- Result of `_transition` / `_eltransition`: either a single constant
rendering, or a (high, low) pair for a transitioning label. -/
inductive Classified where
  | const : Str → Classified
  | trans : Str → Str → Classified
  deriving DecidableEq

/-- The `_energy_to_latex` dictionary, in insertion order. -/
def _energy_to_latex : List (Str × Str) :=
  [(str "j", str "J"), (str "v", str "\\nu"), (str "f", str "f"),
   (str "n", str "n"), (str "ka", str "k_a"), (str "kc", str "k_c")]

/-- Display name of an energy label: dictionary entry if present, else the
raw name (first lines of `_transition`). -/
def lookupEnergy (name : Str) : Str :=
  ((_energy_to_latex.lookup name).getD name)

/-- Value of an unsigned decimal digit string. -/
def digitsToNat (s : Str) : Nat :=
  s.foldl (fun a c => 10 * a + (c.toNat - 48)) 0

/-- Models Python `int()` on the unsigned decimal digit strings produced by
the descriptor grammar; anything else raises `ValueError`. -/
def pyInt (s : Str) : Except Err Nat :=
  if s ≠ [] ∧ s.all Char.isDigit then .ok (digitsToNat s) else .error .valueError

/-- Models Python `str()` of a non-negative integer. -/
def natRepr (n : Nat) : Str := (Nat.repr n).data

/-- Models Python `s.split(sep)` for a one-character separator. -/
def splitChar (sep : Char) : Str → List Str
  | [] => [[]]
  | c :: rest =>
    if c = sep then [] :: splitChar sep rest
    else
      match splitChar sep rest with
      | [] => [[c]]
      | r :: rs => (c :: r) :: rs

/-- Models the unpacking `a, b = s.split(sep)`: exactly two fields, else the
unpacking raises `ValueError`. -/
def split2 (s : Str) (sep : Char) : Except Err (Str × Str) :=
  match splitChar sep s with
  | [a, b] => .ok (a, b)
  | _ => .error .valueError

/-- Models the Python membership test `c in s`. -/
def hasChar (s : Str) (c : Char) : Bool := decide (c ∈ s)

/-- The anchored regular expression of `_transition`: optional digits, one
of `/` or `.`, optional digits, end of string. -/
def reFullNum : Str → Bool
  | [] => false
  | c :: rest =>
    if c.isDigit then reFullNum rest
    else ((c == '/') || (c == '.')) && rest.all Char.isDigit

/-- The LaTeX fraction markup built by `_transition`. -/
def fracLatex (n d : Nat) : Str :=
  str "\\frac\x7b" ++ natRepr n ++ str "\x7d\x7b" ++ natRepr d ++ str "\x7d"

/-- Renders numerator/denominator: a plain integer when evenly divisible,
else the unreduced typeset fraction (the two identical `if` blocks of
`_transition`). -/
def renderND (n d : Nat) : Str :=
  if n % d = 0 then natRepr (n / d) else fracLatex n d

/-- The `"${}={}$".format(name_latex, value)` markup of `_transition`. -/
def wrapEq (nameL v : Str) : Str := '$' :: nameL ++ '=' :: v ++ ['$']

/-- The final equal/not-equal comparison of `_transition`. -/
def classifyRendered (nameL hi lo : Str) : Classified × Bool :=
  if hi = lo then (.const (wrapEq nameL lo), false)
  else (.trans (wrapEq nameL hi) (wrapEq nameL lo), true)

/-- Pairs a classification with the warnings collected on the way.  The
Python function returns only the classification and the flag; the warnings
go to the global warning system, modelled here as a third component. -/
def pack2 (cb : Classified × Bool) (w : List Str) : Classified × Bool × List Str :=
  (cb.1, cb.2, w)

/-- The warning text emitted for an unsupported fractional part. -/
def warnMsg (b : Str) : Str :=
  str "x." ++ b ++ str " floats has not been implemented. Ignoring the floating part."

/-- Numerator/denominator of one decimal-form value (the `b == "0"` /
`b == "5"` / fallback cascade of `_transition`), with the warning emitted. -/
def decimalND (a b : Str) : Except Err ((Nat × Nat) × List Str) :=
  if b = ['0'] then
    match pyInt a with
    | .error e => .error e
    | .ok n => .ok ((2 * n, 1), [])
  else if b = ['5'] then
    match pyInt a with
    | .error e => .error e
    | .ok n => .ok ((2 * n + 1, 2), [])
  else
    match pyInt a with
    | .error e => .error e
    | .ok n => .ok ((n, 1), [warnMsg b])

/-- The tail of the numeric path of `_transition`: render high then low
(each `%` raising `ZeroDivisionError` on a zero denominator), then compare. -/
def finishNum (nameL : Str) (nh dh nl dl : Nat) (w : List Str) :
    Except Err (Classified × Bool × List Str) :=
  if dh = 0 then .error .zeroDivisionError
  else if dl = 0 then .error .zeroDivisionError
  else .ok (pack2 (classifyRendered nameL (renderND nh dh) (renderND nl dl)) w)

/-- Embedding of `_transition` (the transition/constant classifier with its
numeric-level renderer). -/
def _transition (name high_lvl low_lvl : Str) :
    Except Err (Classified × Bool × List Str) :=
  let nameL := lookupEnergy name
  if reFullNum high_lvl then
    if hasChar high_lvl '/' then
      match split2 high_lvl '/' with
      | .error e => .error e
      | .ok (ah, bh) =>
        match split2 low_lvl '/' with
        | .error e => .error e
        | .ok (al, bl) =>
          match pyInt ah with
          | .error e => .error e
          | .ok nh =>
            match pyInt bh with
            | .error e => .error e
            | .ok dh =>
              match pyInt al with
              | .error e => .error e
              | .ok nl =>
                match pyInt bl with
                | .error e => .error e
                | .ok dl => finishNum nameL nh dh nl dl []
    else
      match split2 high_lvl '.' with
      | .error e => .error e
      | .ok (ah, bh) =>
        match split2 low_lvl '.' with
        | .error e => .error e
        | .ok (al, bl) =>
          match decimalND ah bh with
          | .error e => .error e
          | .ok (ndh, wh) =>
            match decimalND al bl with
            | .error e => .error e
            | .ok (ndl, wl) => finishNum nameL ndh.1 ndh.2 ndl.1 ndl.2 (wh ++ wl)
  else .ok (pack2 (classifyRendered nameL high_lvl low_lvl) [])

/-- Embedding of `_eltransition` (electronic labels, raw suffix values,
no `name=` piece). -/
def _eltransition (high low : Str) : Classified × Bool :=
  if high = low then (.const ('$' :: high ++ ['$']), false)
  else (.trans ('$' :: high ++ ['$']) ('$' :: low ++ ['$']), true)

/-- Embedding of the `_removeprefixes` helper: iteratively remove each
prefix when present. -/
def _removeprefixes (s : Str) (ps : List Str) : Str :=
  ps.foldl (fun t p => if p.isPrefixOf t then t.drop p.length else t) s

/-- Models Python `s.replace(a, b)` for one-character arguments. -/
def replaceChar (a b : Char) (s : Str) : Str :=
  s.map (fun c => if c = a then b else c)

/-- The energy-label alternation `(j|v|n|f|ka|kc)` in regex order. -/
def labelNames : List Str := [str "j", str "v", str "n", str "f", str "ka", str "kc"]

/-- Leftmost alternative that is a prefix of `s` (regex alternation; the
alternative sets used here are pairwise prefix-incompatible, so no
backtracking is needed). -/
def matchAlt (alts : List Str) (s : Str) : Option Str :=
  alts.findSome? (fun a => if a.isPrefixOf s then some a else none)

/-- Tier 1 regex: label, optional digits, then the literal marker `_2`. -/
def tier1Match (s : Str) : Option Str :=
  match matchAlt labelNames s with
  | none => none
  | some n =>
    let r := s.drop n.length
    let ds := r.takeWhile Char.isDigit
    match r.drop ds.length with
    | '_' :: '2' :: _ => some (n ++ ds ++ str "_2")
    | _ => none

/-- Tier 2 regex: label, optional digits, `d`, optional digits. -/
def tier2Match (s : Str) : Option Str :=
  match matchAlt labelNames s with
  | none => none
  | some n =>
    let r := s.drop n.length
    let ds := r.takeWhile Char.isDigit
    match r.drop ds.length with
    | 'd' :: r2 => some (n ++ ds ++ 'd' :: r2.takeWhile Char.isDigit)
    | _ => none

/-- Tier 3 regex: label, optional digits. -/
def tier3Match (s : Str) : Option Str :=
  match matchAlt labelNames s with
  | none => none
  | some n => some (n ++ (s.drop n.length).takeWhile Char.isDigit)

/-- Tiers 4 and 5 regexes: `el`, optional digits, then a long (`po|so|do`)
or short (`p|s|d`) electronic suffix. -/
def tier45Match (lng : Bool) (s : Str) : Option Str :=
  if (str "el").isPrefixOf s then
    let r := s.drop 2
    let ds := r.takeWhile Char.isDigit
    match matchAlt (if lng then [str "po", str "so", str "do"]
        else [str "p", str "s", str "d"]) (r.drop ds.length) with
    | some suf => some (str "el" ++ ds ++ suf)
    | none => none
  else none

/-- Tier 6 regex: `(pp|pm)`, `_fif`, optional digits. -/
def tier6Match (s : Str) : Option Str :=
  match matchAlt [str "pp", str "pm"] s with
  | none => none
  | some n =>
    let r := s.drop n.length
    if (str "_fif").isPrefixOf r then
      some (n ++ str "_fif" ++ (r.drop 4).takeWhile Char.isDigit)
    else none

/-- Common body of the three numeric-tier branches: recompute the label
names, compare them, append name and marker-translated values, and advance
both halves past the token and one following separator. -/
def numTierAdvance (tr : Str → Str) (high low eh el2 : Str)
    (ns hs ls : List Str) :
    Except Err (Str × Str × List Str × List Str × List Str) :=
  match matchAlt labelNames eh, matchAlt labelNames el2 with
  | some nh, some nl =>
    if nh = nl then
      .ok (_removeprefixes high [eh, ['_']], _removeprefixes low [el2, ['_']],
        ns ++ [nh], hs ++ [tr (_removeprefixes eh [nh])],
        ls ++ [tr (_removeprefixes el2 [nl])])
    else .error .valueError
  | _, _ => .error .attributeError

/-- One iteration of the `while` loop of `transition_to_latex`: the six tier
attempts in order, then the fall-through.  The tier-4 branch raises
`AttributeError`, because the source calls a method that `str` objects do not
have when extracting the value.  In the fall-through, both halves are
non-empty (loop condition), so the asymmetric-exhaustion check can never
fire and the loop re-runs on unchanged state, modelled by returning the
state unchanged. -/
def transStep (high low : Str) (ns hs ls : List Str) :
    Except Err (Str × Str × List Str × List Str × List Str) :=
  match tier1Match high, tier1Match low with
  | some eh, some el2 => numTierAdvance (replaceChar '_' '/') high low eh el2 ns hs ls
  | _, _ =>
  match tier2Match high, tier2Match low with
  | some eh, some el2 => numTierAdvance (replaceChar 'd' '.') high low eh el2 ns hs ls
  | _, _ =>
  match tier3Match high, tier3Match low with
  | some eh, some el2 => numTierAdvance (fun v => v) high low eh el2 ns hs ls
  | _, _ =>
  match tier45Match true high, tier45Match true low with
  | some _, some _ => .error .attributeError
  | _, _ =>
  match tier45Match false high, tier45Match false low with
  | some eh, some el2 =>
    .ok (_removeprefixes high [eh, ['_']], _removeprefixes low [el2, ['_']],
      ns ++ [str "el"], hs ++ [_removeprefixes eh [str "el"]],
      ls ++ [_removeprefixes el2 [str "el"]])
  | _, _ =>
  match tier6Match high, tier6Match low with
  | some eh, some el2 =>
    .ok (_removeprefixes high [eh, ['_']], _removeprefixes low [el2, ['_']],
      ns, hs, ls)
  | _, _ =>
    if (high = [] ∧ low ≠ []) ∨ (high ≠ [] ∧ low = []) then .error .runtimeError
    else .ok (high, low, ns, hs, ls)

/-- Outcome of the driver loop. -/
inductive LoopRes where
  | done : List Str → List Str → List Str → LoopRes
  | failed : Err → LoopRes
  | fuelOut
  deriving DecidableEq

/-- The driver loop with an explicit iteration budget. -/
def transLoop : Nat → Str → Str → List Str → List Str → List Str → LoopRes
  | 0, high, low, ns, hs, ls =>
    if high = [] ∨ low = [] then .done ns hs ls else .fuelOut
  | fuel + 1, high, low, ns, hs, ls =>
    if high = [] ∨ low = [] then .done ns hs ls
    else
      match transStep high low ns hs ls with
      | .error e => .failed e
      | .ok (h2, l2, ns2, hs2, ls2) => transLoop fuel h2 l2 ns2 hs2 ls2

/-- Models `s.count("__")` (non-overlapping occurrences). -/
def countUU : Str → Nat
  | '_' :: '_' :: r => countUU r + 1
  | _ :: r => countUU r
  | [] => 0

/-- Splits at the first occurrence of `"__"`. -/
def splitUU : Str → Option (Str × Str)
  | '_' :: '_' :: r => some ([], r)
  | c :: r => (splitUU r).map (fun p => (c :: p.1, p.2))
  | [] => none

/-- One step of the `_sort_transitions` loop body: electronic labels go to
`_eltransition`, everything else to `_transition` (whose warnings are
discarded here, as in the source). -/
def classifyTriple (t : Str × Str × Str) : Except Err (Classified × Bool) :=
  if t.1 = str "el" then .ok (_eltransition t.2.1 t.2.2)
  else
    match _transition t.1 t.2.1 t.2.2 with
    | .error e => .error e
    | .ok (c, b, _) => .ok (c, b)

/-- Models Python `zip` over three lists (stops at the shortest). -/
def zip3 : List Str → List Str → List Str → List (Str × Str × Str)
  | n :: ns, h :: hs, l :: ls => (n, h, l) :: zip3 ns hs ls
  | _, _, _ => []

/-- The accumulation loop of `_sort_transitions`.  The source branches on
the `istrans` flag, which is `true` exactly when the classifier returned a
pair, so the branch is taken on the constructor here. -/
def sortAux : List (Str × Str × Str) → Str → Str → Str → Except Err (Str × Str × Str)
  | [], d0, d1a, d1b => .ok (d0, d1a, d1b)
  | t :: rest, d0, d1a, d1b =>
    match classifyTriple t with
    | .error e => .error e
    | .ok (.const s, _) => sortAux rest (d0 ++ s ++ str " ") d1a d1b
    | .ok (.trans a b, _) =>
      sortAux rest d0 (d1a ++ a ++ str ", ") (d1b ++ b ++ str ", ")

/-- Models the Python slice `s[:-2]`. -/
def cutLast2 (s : Str) : Str := s.take (s.length - 2)

/-- Models Python `s.strip()`. -/
def pyStrip (s : Str) : Str :=
  ((s.dropWhile Char.isWhitespace).reverse.dropWhile Char.isWhitespace).reverse

/-- Embedding of `_sort_transitions` (the assembler). -/
def _sort_transitions (ns hs ls : List Str) : Except Err Str :=
  if hs.length ≠ ns.length ∨ ls.length ≠ ns.length then .error .valueError
  else if ns = [] then .ok []
  else
    match sortAux (zip3 ns hs ls) [] [] [] with
    | .error e => .error e
    | .ok (d0, d1a, d1b) =>
      .ok (pyStrip d0 ++ str " (" ++ cutLast2 d1a ++ str " $\\to$ "
        ++ cutLast2 d1b ++ str ")")

/-- Outcome of `transition_to_latex` under a given iteration budget. -/
inductive TRes where
  | ok : Str → TRes
  | err : Err → TRes
  | fuelOut
  deriving DecidableEq

/-- Embedding of the public `transition_to_latex`: separator-count check,
split into halves, driver loop, assembler. -/
def transition_to_latex (fuel : Nat) (t : Str) : TRes :=
  if countUU t = 1 then
    match splitUU t with
    | none => .err .valueError
    | some (high, low) =>
      match transLoop fuel high low [] [] [] with
      | .done ns hs ls =>
        match _sort_transitions ns hs ls with
        | .ok s => .ok s
        | .error e => .err e
      | .failed e => .err e
      | .fuelOut => .fuelOut
  else .err .valueError

/-- Keys of `_molecules_to_latex`, in insertion order. -/
def molKeys : List String :=
  ["h", "h2", "hd", "co", "13c_o", "c_18o", "13c_18o", "c", "n", "o", "s",
   "si", "cs", "cn", "hcn", "hnc", "oh", "h2o", "h2_18o", "c2h", "c_c3h2",
   "so", "cp", "sp", "hcop", "chp", "ohp", "shp"]

/-- The `_molecules_aliases` dictionary. -/
def molAliases : List (String × String) :=
  [("13co", "13c_o"), ("c18o", "c_18o"), ("13c18o", "13c_18o"),
   ("cc3h2", "c_c3h2")]

/-- Models `line.split(sep, maxsplit=1)` for a line containing the
underscore separator. -/
def splitOnceUnderscore (l : String) : String × String :=
  let pre := l.takeWhile (fun c => c ≠ '_')
  (pre, l.drop (pre.length + 1))

/-- First element of maximal length (Python `idxmax` over the lengths). -/
def argmaxLen : List String → String
  | [] => ""
  | h :: t => t.foldl (fun b p => if p.length > b.length then p else b) h

/-- Embedding of `molecule_and_transition`. -/
def molecule_and_transition (line : String) : Except Err (String × String) :=
  if ¬ line.contains '_' then .error .valueError
  else
    let l := line.toLower.trim
    let prefixes := molKeys.filter (fun s => s.isPrefixOf l)
    if prefixes = [] then .ok (splitOnceUnderscore l)
    else
      let p := argmaxLen prefixes
      .ok (p, l.drop (p.length + 1))

/-- Embedding of `molecule`. -/
def molecule (line : String) : Except Err String :=
  match molecule_and_transition line with
  | .error e => .error e
  | .ok (m, _) => .ok m

/-- The `mols` argument of `filter_molecules`: `None`, a string, or a
(mutable, caller-owned) list. -/
inductive MolsArg where
  | nothing
  | ofStr : String → MolsArg
  | ofList : List String → MolsArg

/-- Identity-aware return value: `aliasOfNames` is the very `names` list
object; `fresh` is a newly allocated list. -/
inductive RetList where
  | aliasOfNames
  | fresh : List String → RetList
  deriving DecidableEq

/-- Caller-visible outcome of a `filter_molecules` call: the returned value
(or the exception), the contents of the caller's `mols` list after the call
when a list was passed, and the contents of `names` after the call. -/
structure FMResult where
  ret : Except Err RetList
  molsAfter : Option (List String)
  namesAfter : List String

/-- Alias lookup used on the (rebound, fresh) mols list. -/
def lookupAlias (m : String) : String :=
  ((molAliases.lookup m).getD m)

/-- The part of `filter_molecules` after the in-place normalisation: alias
substitution into a fresh list, per-line molecule extraction (the first
failing line propagates its exception), index selection, fresh result list. -/
def computeRet (names : List String) (ms : List String) : Except Err RetList :=
  let ms2 := ms.map lookupAlias
  match names.mapM molecule with
  | .error e => .error e
  | .ok lines_mols =>
    let indices := (List.range names.length).filter
      (fun i => ms2.contains (lines_mols.getD i ""))
    .ok (.fresh (indices.map (fun i => names.getD i "")))

/-- Embedding of `filter_molecules` with caller-visible effects explicit.
With `None` the function returns the `names` object itself; with a string it
builds a private one-element list; with a list it overwrites each entry of
the caller's list with its stripped lowercase form before computing the
result. -/
def filter_molecules (names : List String) (mols : MolsArg) : FMResult :=
  match mols with
  | .nothing => ⟨.ok .aliasOfNames, none, names⟩
  | .ofStr s => ⟨computeRet names ([s].map (fun m => m.trim.toLower)), none, names⟩
  | .ofList l =>
    let l2 := l.map (fun m => m.trim.toLower)
    ⟨computeRet names l2, some l2, names⟩

/-- A rendered label piece: a `$`-wrapped math string. -/
def DollarWrap (s : Str) : Prop := ∃ m, s = '$' :: m ++ ['$']

/-- Constant renderings of a classified accumulator, in order. -/
def constParts (l : List (Classified × Bool)) : List Str :=
  l.filterMap (fun cb => match cb.1 with | .const s => some s | _ => none)

/-- High-side transition renderings of a classified accumulator, in order. -/
def transHiParts (l : List (Classified × Bool)) : List Str :=
  l.filterMap (fun cb => match cb.1 with | .trans a _ => some a | _ => none)

/-- Low-side transition renderings of a classified accumulator, in order. -/
def transLoParts (l : List (Classified × Bool)) : List Str :=
  l.filterMap (fun cb => match cb.1 with | .trans _ b => some b | _ => none)

/-- Classify every accumulator triple in order (first failure propagates). -/
def classifyAll : List (Str × Str × Str) → Except Err (List (Classified × Bool))
  | [] => .ok []
  | t :: rest =>
    match classifyTriple t with
    | .error e => .error e
    | .ok cb =>
      match classifyAll rest with
      | .error e => .error e
      | .ok cls => .ok (cb :: cls)

/-- Concatenation with a trailing separator after every element (the shape
the accumulation loop of `_sort_transitions` produces). -/
def joinTail (sep : Str) (xs : List Str) : Str := (xs.map (fun x => x ++ sep)).flatten

/-- Join with a separator between consecutive elements. -/
def interc (sep : Str) : List Str → Str
  | [] => []
  | [x] => x
  | x :: xs => x ++ sep ++ interc sep xs

/- ------------------------------------------------------------------ -/
/- Theorems                                                            -/
/- ------------------------------------------------------------------ -/

/-- The dead asymmetry guard: a no-match loop iteration on the halves
`x` / `y` leaves the state unchanged, so the loop never terminates. -/
theorem transLoop_xy (fuel : Nat) :
    transLoop fuel (str "x") (str "y") [] [] [] = .fuelOut := by
  induction fuel with
  | zero => decide
  | succ f ih =>
    have hstep : transStep (str "x") (str "y") [] [] []
        = .ok (str "x", str "y", [], [], []) := by decide
    simp only [transLoop, hstep]
    rw [if_neg (by decide)]
    exact ih

/-- C1: for a descriptor whose upper half has two label tokens and whose
lower half has one (`j1_j2__j1`), `transition_to_latex` does NOT raise: the
loop condition `while high != "" and low != ""` exits as soon as the lower
half is exhausted, the asymmetry guard (which sits inside the loop, where
both halves are non-empty) never fires, and the function returns a rendered
string built from the silently truncated token list. -/
theorem c1_truncation_instead_of_asymmetry_error :
    transition_to_latex 5 (str "j1_j2__j1") = .ok (str "$J=1$ ( $\\to$ )") := by
  decide

/-- C2: for the descriptor `x__y` (one separator, both halves non-empty,
no tier ever matches) the driver loop never terminates: for every iteration
budget the run ends by exhausting the budget, never by returning a value and
never by raising any error. -/
theorem c2_unrecognized_input_loops_forever (fuel : Nat) :
    transition_to_latex fuel (str "x__y") = .fuelOut := by
  have h := transLoop_xy fuel
  have e : transition_to_latex fuel (str "x__y")
      = (match transLoop fuel (str "x") (str "y") [] [] [] with
        | .done ns hs ls =>
          (match _sort_transitions ns hs ls with
           | .ok s => TRes.ok s
           | .error e => TRes.err e)
        | .failed e => TRes.err e
        | .fuelOut => TRes.fuelOut) := rfl
  rw [e, h]

/-- C3: a descriptor whose halves both start with a long-suffix electronic
token reaches the tier-4 branch, which raises `AttributeError` (the source
calls `_removeprefixes` as a method on a `str` object, and `str` has no such
method) instead of extracting the value as the tier-5 branch does. -/
theorem c3_tier4_attribute_error :
    transition_to_latex 5 (str "el1po__el2po") = .err .attributeError := by
  decide

/-- C4: in the numeric-rendering path of `_transition`, a decimal value
`3.0` is turned into numerator `2 * 3 = 6` with denominator `1` and hence
renders as `6`, not as the plain whole number `3`; the `.5` half-integer
case does follow the claimed rule (`2.5` renders as the fraction `5/2`). -/
theorem c4_decimal_zero_doubles :
    _transition (str "j") (str "3.0") (str "3.0")
      = .ok (.const (str "$J=6$"), false, [])
    ∧ _transition (str "j") (str "2.5") (str "2.5")
      = .ok (.const (str "$J=\\frac{5}{2}$"), false, []) := by
  constructor
  · decide
  · decide

/-- C9: the descriptor `"__"` has exactly one separator and two empty
halves; the driver loop exits immediately and `_sort_transitions` returns
the empty string from its empty-accumulator short-circuit, for every
iteration budget and without any error. -/
theorem c9_empty_descriptor_empty_string (fuel : Nat) :
    transition_to_latex fuel (str "__") = .ok [] := by
  cases fuel <;> rfl

/-- C10: `filter_molecules` overwrites each entry of a list argument with
its stripped lowercase form (visible to the caller after the call), returns
the very `names` list object (not a copy) when `mols` is `None`, and never
modifies the contents of `names`. -/
theorem c10_filter_molecules_effects :
    (∀ (names l : List String),
      (filter_molecules names (.ofList l)).molsAfter
        = some (l.map (fun m => m.trim.toLower)))
    ∧ (∀ names : List String,
      (filter_molecules names .nothing).ret = .ok .aliasOfNames)
    ∧ (∀ (names : List String) (mols : MolsArg),
      (filter_molecules names mols).namesAfter = names) := by
  refine ⟨fun _ _ => rfl, fun _ => rfl, fun names mols => ?_⟩
  cases mols <;> rfl

/-- A digit character is not the fraction separator. -/
theorem isDigit_ne_slash {c : Char} (h : c.isDigit) : c ≠ '/' := by
  rintro rfl; exact absurd h (by decide)

/-- A digit character is not the decimal separator. -/
theorem isDigit_ne_dot {c : Char} (h : c.isDigit) : c ≠ '.' := by
  rintro rfl; exact absurd h (by decide)

/-- The `_transition` regex accepts digits, one marker, digits. -/
theorem reFullNum_mid (da db : Str) (m : Char)
    (hm : m = '/' ∨ m = '.')
    (hda : ∀ c ∈ da, c.isDigit) (hdb : ∀ c ∈ db, c.isDigit) :
    reFullNum (da ++ m :: db) = true := by
  induction da with
  | nil =>
    have hmd : m.isDigit = false := by rcases hm with rfl | rfl <;> decide
    rcases hm with rfl | rfl <;>
      (simp [reFullNum, hmd, List.all_eq_true]; exact hdb)
  | cons c da ih =>
    have hc : c.isDigit := hda c (by simp)
    simp only [List.cons_append, reFullNum, hc, if_true]
    exact ih (fun x hx => hda x (by simp [hx]))

/-- Splitting a string without the separator yields one field. -/
theorem splitChar_eq_single (sep : Char) (s : Str) (h : ∀ c ∈ s, c ≠ sep) :
    splitChar sep s = [s] := by
  induction s with
  | nil => rfl
  | cons c r ih =>
    simp only [splitChar]
    rw [if_neg (h c (by simp)), ih (fun x hx => h x (by simp [hx]))]

/-- Splitting around a single separator occurrence yields the two sides. -/
theorem splitChar_pair (sep : Char) (da db : Str)
    (h1 : ∀ c ∈ da, c ≠ sep) (h2 : ∀ c ∈ db, c ≠ sep) :
    splitChar sep (da ++ sep :: db) = [da, db] := by
  induction da with
  | nil =>
    simp [splitChar, splitChar_eq_single sep db h2]
  | cons c da ih =>
    simp only [List.cons_append, splitChar]
    rw [if_neg (h1 c (by simp)), List.append_eq,
      ih (fun x hx => h1 x (by simp [hx]))]

/-- Two-field unpacking succeeds around a single separator occurrence. -/
theorem split2_pair (sep : Char) (da db : Str)
    (h1 : ∀ c ∈ da, c ≠ sep) (h2 : ∀ c ∈ db, c ≠ sep) :
    split2 (da ++ sep :: db) sep = .ok (da, db) := by
  unfold split2
  rw [splitChar_pair sep da db h1 h2]

/-- `int()` succeeds on a non-empty digit string. -/
theorem pyInt_digits (s : Str) (hne : s ≠ []) (hd : ∀ c ∈ s, c.isDigit) :
    pyInt s = .ok (digitsToNat s) := by
  unfold pyInt
  rw [if_pos ⟨hne, List.all_eq_true.mpr hd⟩]

/-- A string containing the separator passes the membership test. -/
theorem hasChar_mid (da db : Str) (c : Char) : hasChar (da ++ c :: db) c = true := by
  simp [hasChar]

/-- A string avoiding the separator fails the membership test. -/
theorem hasChar_none (s : Str) (c : Char) (h : ∀ x ∈ s, x ≠ c) :
    hasChar s c = false := by
  simp only [hasChar, decide_eq_false_iff_not]
  intro hc
  exact h c hc rfl

/-- The numeric tail succeeds on non-zero denominators. -/
theorem finishNum_ok (nl : Str) (a b c d : Nat) (w : List Str)
    (hb : b ≠ 0) (hd : d ≠ 0) :
    finishNum nl a b c d w
      = .ok (pack2 (classifyRendered nl (renderND a b) (renderND c d)) w) := by
  unfold finishNum
  rw [if_neg hb, if_neg hd]

/-- Successful numeric-tail results have the rendered/compared shape. -/
theorem finishNum_inv {nl : Str} {a b c d : Nat} {w : List Str}
    {r : Classified × Bool × List Str} (h : finishNum nl a b c d w = .ok r) :
    r = pack2 (classifyRendered nl (renderND a b) (renderND c d)) w := by
  unfold finishNum at h
  split at h
  · exact absurd h (by simp)
  · split at h
    · exact absurd h (by simp)
    · exact (Except.ok.inj h).symm

/-- C6: for every fraction-form pair of raw values (digit strings around a
single `/`, non-zero denominators), `_transition` succeeds and renders each
side as the plain integer quotient when the denominator divides the
numerator evenly, and as the unreduced typeset fraction otherwise, before
the equal/not-equal comparison. -/
theorem c6_fraction_rendering (name da db dc dd : Str)
    (hda : da ≠ []) (hdaD : ∀ c ∈ da, c.isDigit)
    (hdbD : ∀ c ∈ db, c.isDigit)
    (hdc : dc ≠ []) (hdcD : ∀ c ∈ dc, c.isDigit)
    (hddD : ∀ c ∈ dd, c.isDigit)
    (hb : digitsToNat db ≠ 0) (hd : digitsToNat dd ≠ 0) :
    _transition name (da ++ '/' :: db) (dc ++ '/' :: dd)
      = .ok (pack2 (classifyRendered (lookupEnergy name)
          (if digitsToNat da % digitsToNat db = 0
            then natRepr (digitsToNat da / digitsToNat db)
            else fracLatex (digitsToNat da) (digitsToNat db))
          (if digitsToNat dc % digitsToNat dd = 0
            then natRepr (digitsToNat dc / digitsToNat dd)
            else fracLatex (digitsToNat dc) (digitsToNat dd))) []) := by
  have hdb : db ≠ [] := by
    intro h
    exact hb (by rw [h]; rfl)
  have hdd : dd ≠ [] := by
    intro h
    exact hd (by rw [h]; rfl)
  have hre : reFullNum (da ++ '/' :: db) = true :=
    reFullNum_mid da db '/' (Or.inl rfl) hdaD hdbD
  have hcc : hasChar (da ++ '/' :: db) '/' = true := hasChar_mid da db '/'
  have hs1 : split2 (da ++ '/' :: db) '/' = .ok (da, db) :=
    split2_pair '/' da db (fun c hc => isDigit_ne_slash (hdaD c hc))
      (fun c hc => isDigit_ne_slash (hdbD c hc))
  have hs2 : split2 (dc ++ '/' :: dd) '/' = .ok (dc, dd) :=
    split2_pair '/' dc dd (fun c hc => isDigit_ne_slash (hdcD c hc))
      (fun c hc => isDigit_ne_slash (hddD c hc))
  have hp1 := pyInt_digits da hda hdaD
  have hp2 := pyInt_digits db hdb hdbD
  have hp3 := pyInt_digits dc hdc hdcD
  have hp4 := pyInt_digits dd hdd hddD
  have hfin := finishNum_ok (lookupEnergy name) (digitsToNat da) (digitsToNat db)
    (digitsToNat dc) (digitsToNat dd) [] hb hd
  simp only [_transition, hre, if_true, hcc, hs1, hs2, hp1, hp2, hp3, hp4, hfin,
    renderND]

/-- C8: for every decimal raw value whose fractional part is neither `0` nor
`5`, `_transition` emits the unsupported-float warning for each side, falls
back to the integer part with denominator 1 (so the rendered value is the
integer part alone), and returns the constant rendering without raising. -/
theorem c8_unsupported_decimal_warns_and_truncates (name da fb : Str)
    (hda : da ≠ []) (hdaD : ∀ c ∈ da, c.isDigit)
    (hfbD : ∀ c ∈ fb, c.isDigit) (h0 : fb ≠ ['0']) (h5 : fb ≠ ['5']) :
    _transition name (da ++ '.' :: fb) (da ++ '.' :: fb)
      = .ok (.const (wrapEq (lookupEnergy name) (natRepr (digitsToNat da))),
          false, [warnMsg fb, warnMsg fb]) := by
  have hre : reFullNum (da ++ '.' :: fb) = true :=
    reFullNum_mid da fb '.' (Or.inr rfl) hdaD hfbD
  have hnc : hasChar (da ++ '.' :: fb) '/' = false := by
    apply hasChar_none
    intro x hx
    rcases List.mem_append.1 hx with h | h
    · exact isDigit_ne_slash (hdaD x h)
    · rcases List.mem_cons.1 h with rfl | h
      · decide
      · exact isDigit_ne_slash (hfbD x h)
  have hsp : split2 (da ++ '.' :: fb) '.' = .ok (da, fb) :=
    split2_pair '.' da fb (fun c hc => isDigit_ne_dot (hdaD c hc))
      (fun c hc => isDigit_ne_dot (hfbD c hc))
  have hdnd : decimalND da fb = .ok ((digitsToNat da, 1), [warnMsg fb]) := by
    unfold decimalND
    rw [if_neg h0, if_neg h5, pyInt_digits da hda hdaD]
  have hfin := finishNum_ok (lookupEnergy name) (digitsToNat da) 1
    (digitsToNat da) 1 [warnMsg fb, warnMsg fb] one_ne_zero one_ne_zero
  simp only [_transition, hre, if_true, hnc, Bool.false_eq_true, if_false, hsp,
    hdnd, List.singleton_append, hfin, renderND, Nat.mod_one, Nat.div_one]
  simp [classifyRendered, pack2]

/-- A successful `_transition` on two equal raw values produces the rendered
comparison of one rendered value with itself. -/
theorem transition_diag {name v : Str} {r : Classified × Bool × List Str}
    (h : _transition name v v = .ok r) :
    ∃ X w, r = pack2 (classifyRendered (lookupEnergy name) X X) w := by
  unfold _transition at h
  cases hre : reFullNum v
  · rw [if_neg (by simp [hre])] at h
    exact ⟨v, [], (Except.ok.inj h).symm⟩
  · rw [if_pos hre] at h
    cases hcc : hasChar v '/'
    · rw [if_neg (by simp [hcc])] at h
      cases hsp : split2 v '.' with
      | error e =>
        rw [hsp] at h
        exact absurd h (by simp)
      | ok ab =>
        obtain ⟨a, b⟩ := ab
        rw [hsp] at h
        dsimp only at h
        cases hdn : decimalND a b with
        | error e =>
          rw [hdn] at h
          exact absurd h (by simp)
        | ok ndw =>
          obtain ⟨nd, w⟩ := ndw
          rw [hdn] at h
          dsimp only at h
          exact ⟨renderND nd.1 nd.2, w ++ w, finishNum_inv h⟩
    · rw [if_pos hcc] at h
      cases hsp : split2 v '/' with
      | error e =>
        rw [hsp] at h
        exact absurd h (by simp)
      | ok ab =>
        obtain ⟨a, b⟩ := ab
        rw [hsp] at h
        dsimp only at h
        cases hpa : pyInt a with
        | error e =>
          rw [hpa] at h
          exact absurd h (by simp)
        | ok n =>
          rw [hpa] at h
          dsimp only at h
          cases hpb : pyInt b with
          | error e =>
            rw [hpb] at h
            exact absurd h (by simp)
          | ok d =>
            rw [hpb] at h
            dsimp only at h
            exact ⟨renderND n d, [], finishNum_inv h⟩

/-- C7: classifying a label whose high and low raw values are equal always
yields a single constant rendering with the transition flag `False`, never a
pair, both for `_transition` (numeric labels) and for `_eltransition`
(electronic labels). -/
theorem c7_equal_values_render_constant :
    (∀ (name v : Str) (r : Classified × Bool × List Str),
      _transition name v v = .ok r → r.2.1 = false ∧ ∃ s, r.1 = .const s)
    ∧ (∀ v : Str, _eltransition v v = (.const ('$' :: v ++ ['$']), false)) := by
  constructor
  · intro name v r h
    obtain ⟨X, w, rfl⟩ := transition_diag h
    simp [pack2, classifyRendered]
  · intro v
    simp [_eltransition]

/-- Witness for C7 at the rotational label `j` with equal raw values `1`. -/
theorem c7_witness :
    (Classified.const (str "$J=1$"), false, ([] : List Str)).2.1 = false
      ∧ ∃ s, (Classified.const (str "$J=1$"), false, ([] : List Str)).1
          = Classified.const s :=
  c7_equal_values_render_constant.1 (str "j") (str "1")
    (Classified.const (str "$J=1$"), false, []) (by decide)

/-- Witness for C6 at `3/2` (not divisible: typeset fraction) versus `4/2`
(divisible: plain integer). -/
theorem c6_witness :
    _transition (str "j") (str "3" ++ '/' :: str "2") (str "4" ++ '/' :: str "2")
      = .ok (pack2 (classifyRendered (lookupEnergy (str "j"))
          (if digitsToNat (str "3") % digitsToNat (str "2") = 0
            then natRepr (digitsToNat (str "3") / digitsToNat (str "2"))
            else fracLatex (digitsToNat (str "3")) (digitsToNat (str "2")))
          (if digitsToNat (str "4") % digitsToNat (str "2") = 0
            then natRepr (digitsToNat (str "4") / digitsToNat (str "2"))
            else fracLatex (digitsToNat (str "4")) (digitsToNat (str "2")))) []) :=
  c6_fraction_rendering (str "j") (str "3") (str "2") (str "4") (str "2")
    (by decide) (by decide) (by decide) (by decide) (by decide) (by decide)
    (by decide) (by decide)

/-- Witness for C8 at the raw value `2.3`: one warning per side and the
rendered value is the integer part `2`. -/
theorem c8_witness :
    _transition (str "j") (str "2" ++ '.' :: str "3") (str "2" ++ '.' :: str "3")
      = .ok (.const (wrapEq (lookupEnergy (str "j")) (natRepr (digitsToNat (str "2")))),
          false, [warnMsg (str "3"), warnMsg (str "3")]) :=
  c8_unsupported_decimal_warns_and_truncates (str "j") (str "2") (str "3")
    (by decide) (by decide) (by decide) (by decide) (by decide)

/-- Rendered `name=value` pieces are `$`-wrapped. -/
theorem wrapEq_wrap (n v : Str) : DollarWrap (wrapEq n v) :=
  ⟨n ++ '=' :: v, by simp [wrapEq]⟩

/-- Every successful `_transition` result is a rendered comparison. -/
theorem transition_shape {name hi lo : Str} {r : Classified × Bool × List Str}
    (h : _transition name hi lo = .ok r) :
    ∃ X Y w, r = pack2 (classifyRendered (lookupEnergy name) X Y) w := by
  unfold _transition at h
  cases hre : reFullNum hi
  · rw [if_neg (by simp [hre])] at h
    exact ⟨hi, lo, [], (Except.ok.inj h).symm⟩
  · rw [if_pos hre] at h
    cases hcc : hasChar hi '/'
    · rw [if_neg (by simp [hcc])] at h
      cases hs1 : split2 hi '.' with
      | error e =>
        rw [hs1] at h
        exact absurd h (by simp)
      | ok ab =>
        obtain ⟨a, b⟩ := ab
        rw [hs1] at h
        dsimp only at h
        cases hs2 : split2 lo '.' with
        | error e =>
          rw [hs2] at h
          exact absurd h (by simp)
        | ok ab2 =>
          obtain ⟨a2, b2⟩ := ab2
          rw [hs2] at h
          dsimp only at h
          cases hd1 : decimalND a b with
          | error e =>
            rw [hd1] at h
            exact absurd h (by simp)
          | ok ndw =>
            obtain ⟨nd, w1⟩ := ndw
            rw [hd1] at h
            dsimp only at h
            cases hd2 : decimalND a2 b2 with
            | error e =>
              rw [hd2] at h
              exact absurd h (by simp)
            | ok ndw2 =>
              obtain ⟨nd2, w2⟩ := ndw2
              rw [hd2] at h
              dsimp only at h
              exact ⟨renderND nd.1 nd.2, renderND nd2.1 nd2.2, w1 ++ w2,
                finishNum_inv h⟩
    · rw [if_pos hcc] at h
      cases hs1 : split2 hi '/' with
      | error e =>
        rw [hs1] at h
        exact absurd h (by simp)
      | ok ab =>
        obtain ⟨a, b⟩ := ab
        rw [hs1] at h
        dsimp only at h
        cases hs2 : split2 lo '/' with
        | error e =>
          rw [hs2] at h
          exact absurd h (by simp)
        | ok ab2 =>
          obtain ⟨a2, b2⟩ := ab2
          rw [hs2] at h
          dsimp only at h
          cases hp1 : pyInt a with
          | error e =>
            rw [hp1] at h
            exact absurd h (by simp)
          | ok n1 =>
            rw [hp1] at h
            dsimp only at h
            cases hp2 : pyInt b with
            | error e =>
              rw [hp2] at h
              exact absurd h (by simp)
            | ok d1 =>
              rw [hp2] at h
              dsimp only at h
              cases hp3 : pyInt a2 with
              | error e =>
                rw [hp3] at h
                exact absurd h (by simp)
              | ok n2 =>
                rw [hp3] at h
                dsimp only at h
                cases hp4 : pyInt b2 with
                | error e =>
                  rw [hp4] at h
                  exact absurd h (by simp)
                | ok d2 =>
                  rw [hp4] at h
                  dsimp only at h
                  exact ⟨renderND n1 d1, renderND n2 d2, [], finishNum_inv h⟩

/-- Constant renderings produced by the classifier step are `$`-wrapped. -/
theorem classifyTriple_const_wrap {t : Str × Str × Str} {cb : Classified × Bool}
    (h : classifyTriple t = .ok cb) :
    ∀ s, cb.1 = .const s → DollarWrap s := by
  intro s hs
  unfold classifyTriple at h
  by_cases hel : t.1 = str "el"
  · rw [if_pos hel] at h
    have hcb := Except.ok.inj h
    unfold _eltransition at hcb
    by_cases heq : t.2.1 = t.2.2
    · rw [if_pos heq] at hcb
      rw [← hcb] at hs
      dsimp only at hs
      exact ⟨t.2.1, (Classified.const.inj hs).symm⟩
    · rw [if_neg heq] at hcb
      rw [← hcb] at hs
      exact absurd hs (by simp)
  · rw [if_neg hel] at h
    cases htr : _transition t.1 t.2.1 t.2.2 with
    | error e =>
      rw [htr] at h
      exact absurd h (by simp)
    | ok val =>
      obtain ⟨c, b, w⟩ := val
      rw [htr] at h
      dsimp only at h
      have hcb := Except.ok.inj h
      obtain ⟨X, Y, w2, hshape⟩ := transition_shape htr
      unfold pack2 at hshape
      by_cases hxy : X = Y
      · rw [hxy] at hshape
        unfold classifyRendered at hshape
        rw [if_pos rfl] at hshape
        have hc : c = .const (wrapEq (lookupEnergy t.1) Y) := congrArg (·.1) hshape
        rw [← hcb] at hs
        dsimp only at hs
        rw [hc] at hs
        exact (Classified.const.inj hs) ▸ wrapEq_wrap (lookupEnergy t.1) Y
      · unfold classifyRendered at hshape
        rw [if_neg hxy] at hshape
        have hc : c = .trans (wrapEq (lookupEnergy t.1) X) (wrapEq (lookupEnergy t.1) Y) :=
          congrArg (·.1) hshape
        rw [← hcb] at hs
        dsimp only at hs
        rw [hc] at hs
        exact absurd hs (by simp)

/-- Empty join. -/
theorem joinTail_nil (sep : Str) : joinTail sep [] = [] := rfl

/-- Join of a cons. -/
theorem joinTail_cons (sep x : Str) (xs : List Str) :
    joinTail sep (x :: xs) = x ++ sep ++ joinTail sep xs := by
  simp [joinTail, List.append_assoc]

/-- Constant parts of a cons with a constant head. -/
theorem constParts_cons_const (s : Str) (b : Bool) (l : List (Classified × Bool)) :
    constParts ((Classified.const s, b) :: l) = s :: constParts l := by
  simp [constParts]

/-- Constant parts of a cons with a transition head. -/
theorem constParts_cons_trans (a b2 : Str) (b : Bool) (l : List (Classified × Bool)) :
    constParts ((Classified.trans a b2, b) :: l) = constParts l := by
  simp [constParts]

/-- High-side parts of a cons with a constant head. -/
theorem transHiParts_cons_const (s : Str) (b : Bool) (l : List (Classified × Bool)) :
    transHiParts ((Classified.const s, b) :: l) = transHiParts l := by
  simp [transHiParts]

/-- High-side parts of a cons with a transition head. -/
theorem transHiParts_cons_trans (a b2 : Str) (b : Bool) (l : List (Classified × Bool)) :
    transHiParts ((Classified.trans a b2, b) :: l) = a :: transHiParts l := by
  simp [transHiParts]

/-- Low-side parts of a cons with a constant head. -/
theorem transLoParts_cons_const (s : Str) (b : Bool) (l : List (Classified × Bool)) :
    transLoParts ((Classified.const s, b) :: l) = transLoParts l := by
  simp [transLoParts]

/-- Low-side parts of a cons with a transition head. -/
theorem transLoParts_cons_trans (a b2 : Str) (b : Bool) (l : List (Classified × Bool)) :
    transLoParts ((Classified.trans a b2, b) :: l) = b2 :: transLoParts l := by
  simp [transLoParts]

/-- The three accumulators of the `_sort_transitions` loop are exactly the
joined constant, high-side and low-side parts of the classified triples, in
original order, appended to their initial values. -/
theorem sortAux_linear (l : List (Str × Str × Str)) :
    ∀ (cls : List (Classified × Bool)) (d0 d1a d1b : Str),
      classifyAll l = .ok cls →
      sortAux l d0 d1a d1b = .ok (d0 ++ joinTail (str " ") (constParts cls),
        d1a ++ joinTail (str ", ") (transHiParts cls),
        d1b ++ joinTail (str ", ") (transLoParts cls)) := by
  induction l with
  | nil =>
    intro cls d0 d1a d1b h
    unfold classifyAll at h
    cases h
    simp [sortAux, constParts, transHiParts, transLoParts, joinTail]
  | cons t rest ih =>
    intro cls d0 d1a d1b h
    unfold classifyAll at h
    cases hct : classifyTriple t with
    | error e =>
      rw [hct] at h
      exact absurd h (by simp)
    | ok cb =>
      rw [hct] at h
      dsimp only at h
      cases hca : classifyAll rest with
      | error e =>
        rw [hca] at h
        exact absurd h (by simp)
      | ok cls2 =>
        rw [hca] at h
        dsimp only at h
        cases h
        obtain ⟨c, b⟩ := cb
        cases c with
        | const s =>
          unfold sortAux
          rw [hct]
          dsimp only
          rw [ih cls2 _ _ _ hca]
          rw [constParts_cons_const, transHiParts_cons_const,
            transLoParts_cons_const, joinTail_cons]
          simp [List.append_assoc]
        | trans a b2 =>
          unfold sortAux
          rw [hct]
          dsimp only
          rw [ih cls2 _ _ _ hca]
          rw [constParts_cons_trans, transHiParts_cons_trans,
            transLoParts_cons_trans, joinTail_cons, joinTail_cons]
          simp [List.append_assoc]


/-- A non-empty tail-separated join is the separated join plus one
trailing separator. -/
theorem joinTail_eq_interc (sep : Str) (xs : List Str) (h : xs ≠ []) :
    joinTail sep xs = interc sep xs ++ sep := by
  induction xs with
  | nil => exact absurd rfl h
  | cons x xs ih =>
    cases xs with
    | nil => simp [joinTail, interc]
    | cons y ys =>
      rw [joinTail_cons, ih (by simp)]
      simp [interc, List.append_assoc]

/-- Dropping the final two characters of a tail-separated join with a
two-character separator recovers the separated join (the `[:-2]` slice of
`_sort_transitions`). -/
theorem cutLast2_joinTail (sep : Str) (h2 : sep.length = 2) (xs : List Str) :
    cutLast2 (joinTail sep xs) = interc sep xs := by
  induction xs with
  | nil => rfl
  | cons x xs ih =>
    cases xs with
    | nil =>
      have hx : joinTail sep [x] = x ++ sep := by simp [joinTail]
      rw [hx]
      unfold cutLast2
      rw [List.length_append, h2, Nat.add_sub_cancel,
        List.take_left' rfl]
      simp [interc]
    | cons y ys =>
      have hlen : 2 ≤ (joinTail sep (y :: ys)).length := by
        rw [joinTail_cons, List.length_append, List.length_append, h2]
        omega
      rw [joinTail_cons]
      unfold cutLast2
      have hl : ((x ++ sep) ++ joinTail sep (y :: ys)).length - 2
          = (x ++ sep).length + ((joinTail sep (y :: ys)).length - 2) := by
        rw [List.length_append, List.length_append, h2]
        omega
      rw [hl, List.take_append]
      have hc : (joinTail sep (y :: ys)).take ((joinTail sep (y :: ys)).length - 2)
          = cutLast2 (joinTail sep (y :: ys)) := rfl
      rw [hc, ih]
      simp [interc, List.append_assoc]

/-- A separated join of `$`-wrapped pieces is `$`-wrapped. -/
theorem interc_wrap (sep : Str) {cs : List Str}
    (h : ∀ c ∈ cs, DollarWrap c) (hne : cs ≠ []) :
    DollarWrap (interc sep cs) := by
  induction cs with
  | nil => exact absurd rfl hne
  | cons c cs ih =>
    cases cs with
    | nil => exact h c (by simp)
    | cons y ys =>
      obtain ⟨m, hm⟩ := h c (by simp)
      obtain ⟨m2, hm2⟩ := ih (fun x hx => h x (by simp [hx])) (by simp)
      refine ⟨m ++ ['$'] ++ sep ++ '$' :: m2, ?_⟩
      show c ++ sep ++ interc sep (y :: ys) = _
      rw [hm, hm2]
      simp [List.append_assoc]

/-- Stripping a `$`-wrapped string with one trailing space removes exactly
that space (the `descr_0.strip()` of `_sort_transitions`). -/
theorem pyStrip_wrap_space {I : Str} (h : DollarWrap I) :
    pyStrip (I ++ str " ") = I := by
  obtain ⟨m, rfl⟩ := h
  have hd : ('$').isWhitespace = false := by decide
  have hsp : (' ').isWhitespace = true := by decide
  unfold pyStrip
  simp [List.dropWhile_cons, hd, hsp, List.reverse_append, str]

/-- Every constant rendering of a successfully classified accumulator is
`$`-wrapped. -/
theorem classifyAll_wrap {l : List (Str × Str × Str)}
    {cls : List (Classified × Bool)} (h : classifyAll l = .ok cls) :
    ∀ s ∈ constParts cls, DollarWrap s := by
  induction l generalizing cls with
  | nil =>
    unfold classifyAll at h
    cases h
    simp [constParts]
  | cons t rest ih =>
    unfold classifyAll at h
    cases hct : classifyTriple t with
    | error e =>
      rw [hct] at h
      exact absurd h (by simp)
    | ok cb =>
      rw [hct] at h
      dsimp only at h
      cases hca : classifyAll rest with
      | error e =>
        rw [hca] at h
        exact absurd h (by simp)
      | ok cls2 =>
        rw [hca] at h
        dsimp only at h
        cases h
        intro s hs
        obtain ⟨c, b⟩ := cb
        cases c with
        | const s0 =>
          rw [constParts_cons_const] at hs
          rcases List.mem_cons.1 hs with rfl | hs2
          · exact classifyTriple_const_wrap hct s rfl
          · exact ih hca s hs2
        | trans a b2 =>
          rw [constParts_cons_trans] at hs
          exact ih hca s hs

/-- C5: the descriptor `v0_j1__v0_j0` yields one constant label (`v`, equal
on both sides) and one transition (`j`), and the output places the rendered
constant first, before the parenthesized high-to-low pair; and in general,
for every accumulator whose triples all classify successfully, the assembler
emits the constants in original order joined by spaces, then the
parenthesized transitions (high side then low side, each joined by commas,
in original order). -/
theorem c5_constants_before_transitions :
    transition_to_latex 5 (str "v0_j1__v0_j0")
      = .ok (str "$\\nu=0$ ($J=1$ $\\to$ $J=0$)")
    ∧ ∀ (ns hs ls : List Str) (cls : List (Classified × Bool)),
        hs.length = ns.length → ls.length = ns.length → ns ≠ [] →
        classifyAll (zip3 ns hs ls) = .ok cls →
        _sort_transitions ns hs ls
          = .ok (interc (str " ") (constParts cls) ++ str " ("
              ++ interc (str ", ") (transHiParts cls) ++ str " $\\to$ "
              ++ interc (str ", ") (transLoParts cls) ++ str ")") := by
  constructor
  · decide
  · intro ns hs ls cls h1 h2 hne hcls
    unfold _sort_transitions
    rw [if_neg (by rw [h1, h2]; simp), if_neg hne]
    rw [sortAux_linear (zip3 ns hs ls) cls [] [] [] hcls]
    dsimp only
    simp only [List.nil_append]
    rw [cutLast2_joinTail (str ", ") (by decide), cutLast2_joinTail (str ", ") (by decide)]
    by_cases hC : constParts cls = []
    · rw [hC, joinTail_nil]
      have hps : pyStrip [] = ([] : Str) := rfl
      rw [hps]
      have hin : interc (str " ") ([] : List Str) = [] := rfl
      rw [hin]
    · rw [joinTail_eq_interc (str " ") _ hC,
        pyStrip_wrap_space (interc_wrap (str " ") (classifyAll_wrap hcls) hC)]

/-- Witness for C5's general clause at the accumulator of `v0_j1__v0_j0`:
one constant and one transition. -/
theorem c5_witness :
    _sort_transitions [str "v", str "j"] [str "0", str "1"] [str "0", str "0"]
      = .ok (interc (str " ") (constParts
            [(Classified.const (str "$\\nu=0$"), false),
             (Classified.trans (str "$J=1$") (str "$J=0$"), true)]) ++ str " ("
          ++ interc (str ", ") (transHiParts
            [(Classified.const (str "$\\nu=0$"), false),
             (Classified.trans (str "$J=1$") (str "$J=0$"), true)]) ++ str " $\\to$ "
          ++ interc (str ", ") (transLoParts
            [(Classified.const (str "$\\nu=0$"), false),
             (Classified.trans (str "$J=1$") (str "$J=0$"), true)]) ++ str ")") :=
  c5_constants_before_transitions.2 [str "v", str "j"] [str "0", str "1"]
    [str "0", str "0"]
    [(Classified.const (str "$\\nu=0$"), false),
     (Classified.trans (str "$J=1$") (str "$J=0$"), true)]
    rfl rfl (by decide) (by decide)
